import Mathlib

/-!
Shallow embedding of the PAIR repository's two training-loop source files:

* `src/KAIR/models/model_gan.py` — class `ModelGAN` (GAN training step:
  loss configuration, optimizers, schedulers, `optimize_parameters`);
* `src/RNAN-0.4/DN_RGB/code/trainer.py` — class `Trainer` (epoch loop,
  PSNR evaluation, checkpointing, termination).

Tensors are abstracted to scalar values in `ℚ`; the networks, loss
functions and PSNR are abstract function parameters of the model.  Under
this scalar abstraction `torch.mean x = x` and `x.detach()` has the same
value as `x`.  Side effects (`backward`, optimizer `step`, `zero_grad`,
toggling `requires_grad`, checkpoint `save`) are recorded as explicit
events in a trace; a Python run that raises (`NameError` on an unbound
local, `AttributeError` on `(0).backward()`) is modelled as `none`.
-/

namespace KAIR

/-- The entries of `opt['train']` (plus `opt['dist']`) that
`ModelGAN.define_loss`, `define_scheduler` and `optimize_parameters`
read.  `D_update_ratio` and `D_init_iters` are `Option Nat` because the
source guards them by Python truthiness (`x if x else default`), which
treats both a missing/None value and `0` as falsy. -/
structure GanOpts where
  G_lossfn_weight : ℚ
  G_lossfn_type : String
  F_lossfn_weight : ℚ
  D_lossfn_weight : ℚ
  gan_type : String
  dist : Bool
  D_update_ratio : Option Nat
  D_init_iters : Option Nat
  G_scheduler_milestones : List Nat
  G_scheduler_gamma : ℚ
  D_scheduler_milestones : List Nat
  D_scheduler_gamma : ℚ

/-- `self.D_update_ratio = self.opt_train['D_update_ratio'] if
self.opt_train['D_update_ratio'] else 1` (model_gan.py line 113):
a missing value and `0` are both falsy and give `1`. -/
def effective_D_update_ratio (o : GanOpts) : Nat :=
  match o.D_update_ratio with
  | none => 1
  | some n => if n = 0 then 1 else n

/-- `self.D_init_iters = self.opt_train['D_init_iters'] if
self.opt_train['D_init_iters'] else 0` (model_gan.py line 114). -/
def effective_D_init_iters (o : GanOpts) : Nat :=
  match o.D_init_iters with
  | none => 0
  | some n => n

/-- The four pixel-loss functions `define_loss` can configure. -/
inductive PixelLoss
  | l1
  | l2
  | l2sum
  | ssim
deriving DecidableEq

/-- The `G_loss` section of `ModelGAN.define_loss` (model_gan.py lines
74–89): with positive weight, an unknown `G_lossfn_type` raises
`NotImplementedError`; with non-positive weight no pixel loss is set
(`self.G_lossfn = None`) and the type is never inspected. -/
def define_G_loss (o : GanOpts) : Except String (Option PixelLoss) :=
  if o.G_lossfn_weight > 0 then
    if o.G_lossfn_type = "l1" then Except.ok (some PixelLoss.l1)
    else if o.G_lossfn_type = "l2" then Except.ok (some PixelLoss.l2)
    else if o.G_lossfn_type = "l2sum" then Except.ok (some PixelLoss.l2sum)
    else if o.G_lossfn_type = "ssim" then Except.ok (some PixelLoss.ssim)
    else Except.error ("Loss type [" ++ o.G_lossfn_type ++ "] is not found.")
  else Except.ok none

/-- A learning-rate scheduler as appended by `define_scheduler`: its
class, the optimizer it is attached to, and its arguments. -/
structure SchedulerDesc where
  kind : String
  optimizer : String
  milestones : List Nat
  gamma : ℚ
deriving DecidableEq

/-- `ModelGAN.define_scheduler` (model_gan.py lines 133–141): appends a
`MultiStepLR` on the generator optimizer, then one on the discriminator
optimizer, to `self.schedulers`. -/
def define_scheduler (o : GanOpts) (schedulers : List SchedulerDesc) : List SchedulerDesc :=
  (schedulers ++
    [⟨"MultiStepLR", "G_optimizer", o.G_scheduler_milestones, o.G_scheduler_gamma⟩]) ++
    [⟨"MultiStepLR", "D_optimizer", o.D_scheduler_milestones, o.D_scheduler_gamma⟩]

/-- The context `optimize_parameters` runs in: the options, the two
networks and the loss functions (abstract scalar functions), and the
tensors fed by `feed_data` (`self.L`, `self.H`, `self.var_ref`). -/
structure GanContext where
  opts : GanOpts
  netG : ℚ → ℚ
  netD : ℚ → ℚ
  L : ℚ
  H : ℚ
  var_ref : ℚ
  G_lossfn : ℚ → ℚ → ℚ
  F_lossfn : ℚ → ℚ → ℚ
  D_lossfn : ℚ → Bool → ℚ

/-- The side effects of one `optimize_parameters` call, in order. -/
inductive GanEvent
  | setDRequiresGrad (b : Bool)
  | zeroGradG
  | backwardG (v : ℚ)
  | stepG
  | zeroGradD
  | backwardD (v : ℚ)
  | stepD
deriving DecidableEq

/-- Whether an event is a `backward` on a discriminator-phase loss. -/
def GanEvent.isBackwardD : GanEvent → Bool
  | GanEvent.backwardD _ => true
  | _ => false

/-- Whether an event is a `backward` on the generator total loss. -/
def GanEvent.isBackwardG : GanEvent → Bool
  | GanEvent.backwardG _ => true
  | _ => false

/-- `current_step % self.D_update_ratio == 0 and current_step >
self.D_init_iters` (model_gan.py line 174), the guard of the generator
update. -/
def g_branch_taken (o : GanOpts) (current_step : Nat) : Bool :=
  (current_step % effective_D_update_ratio o == 0) &&
    decide (effective_D_init_iters o < current_step)

/-- The unweighted adversarial loss of the generator phase
(model_gan.py lines 182–189), i.e. `D_loss` before multiplication by
`self.D_lossfn_weight`: the GAN loss on `netD`'s prediction for the
generated image `E`.  For a `gan_type` in neither branch the local
`D_loss` is never bound and line 190 raises `NameError`: `none`. -/
def gan_loss_on_fake (c : GanContext) (E : ℚ) : Option ℚ :=
  let pred_g_fake := c.netD E
  if c.opts.gan_type = "gan" ∨ c.opts.gan_type = "lsgan" ∨ c.opts.gan_type = "wgangp" then
    some (c.D_lossfn pred_g_fake true)
  else if c.opts.gan_type = "ragan" then
    let pred_d_real := c.netD c.var_ref
    some ((c.D_lossfn (pred_d_real - pred_g_fake) false +
           c.D_lossfn (pred_g_fake - pred_d_real) true) / 2)
  else none

/-- `loss_G_total` as accumulated on model_gan.py lines 172–190: the
pixel loss when `G_lossfn_weight > 0`, plus the perceptual loss when
`F_lossfn_weight > 0`, plus the weighted adversarial loss. -/
def loss_G_total (c : GanContext) (E : ℚ) : Option ℚ :=
  (gan_loss_on_fake c E).map (fun raw =>
    (if c.opts.G_lossfn_weight > 0 then c.opts.G_lossfn_weight * c.G_lossfn E c.H else 0) +
    (if c.opts.F_lossfn_weight > 0 then c.opts.F_lossfn_weight * c.F_lossfn E c.H else 0) +
    c.opts.D_lossfn_weight * raw)

/-- The generator-phase events between `G_optimizer.zero_grad()` and the
`requires_grad` restore (model_gan.py lines 174–193): nothing when the
guard fails, otherwise `loss_G_total.backward()` then
`G_optimizer.step()`. -/
def g_phase_events (c : GanContext) (E : ℚ) (current_step : Nat) : Option (List GanEvent) :=
  if g_branch_taken c.opts current_step then
    (loss_G_total c E).map (fun l => [GanEvent.backwardG l, GanEvent.stepG])
  else some []

/-- The `backward` calls of the discriminator phase (model_gan.py lines
203–240).  In the distributed `ragan` branch (lines 219–227) `l_d_real`
is computed on line 223 but `backward` is called only on `l_d_fake`
(line 227).  A `gan_type` outside both branches leaves `l_d_fake`
unbound (distributed) or makes `loss_D_total` the plain int `0`
(non-distributed), so the run raises: `none`. -/
def d_phase_backwards (c : GanContext) (E : ℚ) : Option (List GanEvent) :=
  if c.opts.dist then
    if c.opts.gan_type = "gan" ∨ c.opts.gan_type = "lsgan" ∨
        c.opts.gan_type = "wgangp" ∨ c.opts.gan_type = "wgansoftplus" then
      let pred_d_real := c.netD c.var_ref
      let l_d_real := c.D_lossfn pred_d_real true
      let pred_d_fake := c.netD E
      let l_d_fake := c.D_lossfn pred_d_fake false
      some [GanEvent.backwardD l_d_real, GanEvent.backwardD l_d_fake]
    else if c.opts.gan_type = "ragan" then
      let pred_d_real := c.netD c.var_ref
      let pred_d_fake := c.netD E
      let l_d_real := (1 / 2 : ℚ) * c.D_lossfn (pred_d_real - pred_d_fake) true
      let pred_d_fake2 := c.netD E
      let l_d_fake := (1 / 2 : ℚ) * c.D_lossfn (pred_d_fake2 - pred_d_real) false
      some [GanEvent.backwardD l_d_fake]
    else none
  else
    let pred_d_real := c.netD c.var_ref
    let pred_d_fake := c.netD E
    if c.opts.gan_type = "gan" ∨ c.opts.gan_type = "lsgan" ∨
        c.opts.gan_type = "wgangp" ∨ c.opts.gan_type = "wgansoftplus" then
      some [GanEvent.backwardD
        (c.D_lossfn pred_d_real true + c.D_lossfn pred_d_fake false)]
    else if c.opts.gan_type = "ragan" then
      some [GanEvent.backwardD
        ((c.D_lossfn (pred_d_real - pred_d_fake) true +
          c.D_lossfn (pred_d_fake - pred_d_real) false) / 2)]
    else none

/-- `ModelGAN.optimize_parameters` (model_gan.py lines 163–257) as an
event trace: freeze the discriminator, `G_optimizer.zero_grad()`,
`self.E = self.netG(self.L)`, the guarded generator update, unfreeze the
discriminator, `D_optimizer.zero_grad()`, the discriminator `backward`
calls, and `D_optimizer.step()`. -/
def optimize_parameters (c : GanContext) (current_step : Nat) : Option (List GanEvent) :=
  (g_phase_events c (c.netG c.L) current_step).bind fun gE =>
    (d_phase_backwards c (c.netG c.L)).bind fun dB =>
      some (([GanEvent.setDRequiresGrad false, GanEvent.zeroGradG] ++ gE ++
        [GanEvent.setDRequiresGrad true, GanEvent.zeroGradD] ++ dB) ++ [GanEvent.stepD])

end KAIR

namespace RNAN

/-- The command-line arguments `Trainer` reads (trainer.py). -/
structure Args where
  test_only : Bool
  epochs : Int
  skip_threshold : ℚ
  load : String

/-- The externally visible calls `Trainer.test` and `Trainer.terminate`
make on their collaborators. -/
inductive TrainerEvent
  | runTest
  | save (epoch : Nat) (is_best : Bool)
deriving DecidableEq

/-- What the resume block of `Trainer.__init__` (trainer.py lines 24–30)
establishes: where the optimizer state was restored from, how many times
`scheduler.step()` was called, and the initial `self.error_last`. -/
structure InitEffects where
  optimizer_loaded_from : Option String
  scheduler_steps : Nat
  error_last : ℚ
deriving DecidableEq

/-- `Trainer.__init__` after building optimizer and scheduler: when
`args.load != '.'`, load `optimizer.pt` from the checkpoint directory
and step the scheduler once per entry of `ckp.log`; always set
`self.error_last = 1e8`. -/
def trainer_init_resume (args : Args) (ckp_dir : String) (ckp_log_len : Nat) : InitEffects :=
  if args.load ≠ "." then
    { optimizer_loaded_from := some (ckp_dir ++ "/optimizer.pt")
      scheduler_steps := ckp_log_len
      error_last := 100000000 }
  else
    { optimizer_loaded_from := none
      scheduler_steps := 0
      error_last := 100000000 }

/-- The per-batch effects of `Trainer.train` (trainer.py lines 51–60). -/
inductive TrainBatchEvent
  | backward (v : ℚ)
  | optStep
deriving DecidableEq

/-- One iteration of the batch loop of `Trainer.train` (trainer.py lines
51–60), after `loss = self.loss(sr, hr)`:  when `loss.data[0] <
args.skip_threshold * self.error_last`, call `loss.backward()` and
`optimizer.step()` (the parameters, abstracted to a scalar, move by the
abstract `gradient_update`); otherwise only print a skip message.  The
result is the new parameter value and the events issued. -/
def train_batch (args : Args) (error_last : ℚ) (params : ℚ)
    (gradient_update : ℚ → ℚ) (lossVal : ℚ) : ℚ × List TrainBatchEvent :=
  if lossVal < args.skip_threshold * error_last then
    (gradient_update params, [TrainBatchEvent.backward lossVal, TrainBatchEvent.optStep])
  else
    (params, [])

/-- `Trainer.terminate` (trainer.py lines 137–143): under `test_only`
run one evaluation pass and return `True`; otherwise return whether
`scheduler.last_epoch + 1 >= args.epochs`. -/
def terminate (args : Args) (last_epoch : Int) : Bool × List TrainerEvent :=
  if args.test_only then
    (true, [TrainerEvent.runTest])
  else
    (decide (last_epoch + 1 ≥ args.epochs), [])

/-- One item yielded by the test loader: the low-resolution input and,
when evaluation is possible, the ground truth (`no_eval`, i.e.
`isinstance(hr[0], int)`, is modelled as `hr = none`). -/
structure TestImage where
  lr : ℚ
  hr : Option ℚ
deriving DecidableEq

/-- The context `Trainer.test` runs in.  `set_scale` selects the scale
the dataset serves but does not change how many items it has, so a
single item list serves every scale index; the model takes the scale
index (`self.model(lr, idx_scale)`), while `utility.calc_psnr` takes the
scale value (with `args.rgb_range` and the benchmark flag folded in). -/
structure TestEnv where
  args : Args
  scales : List ℚ
  images : List TestImage
  model : ℚ → Nat → ℚ
  quantize : ℚ → ℚ
  calc_psnr : ℚ → ℚ → ℚ → ℚ

/-- The accumulator `eval_acc` of one scale pass (trainer.py lines
85–104): starting from `0`, add
`calc_psnr(quantize(model(lr, idx_scale)), hr, scale)` for each item
whose ground truth is available, and nothing for `no_eval` items. -/
def eval_acc (env : TestEnv) (idx_scale : Nat) (scale : ℚ) : ℚ :=
  List.foldl
    (fun acc img =>
      match img.hr with
      | some hr => acc + env.calc_psnr (env.quantize (env.model img.lr idx_scale)) hr scale
      | none => acc)
    0 env.images

/-- `for idx_scale, scale in enumerate(self.scale)` (trainer.py lines
84–120) acting on the freshly appended log row: each iteration stores
`eval_acc / len(self.loader_test)` at position `idx_scale`. -/
def scale_loop (env : TestEnv) : Nat → List ℚ → List ℚ → List ℚ
  | _, [], row => row
  | idx_scale, scale :: rest, row =>
      scale_loop env (idx_scale + 1) rest
        (row.set idx_scale (eval_acc env idx_scale scale / (env.images.length : ℚ)))

/-- `best = self.ckp.log.max(0)` restricted to the first scale column:
running maximum with the index of its first occurrence (`bv`, `bi` are
the best so far, `i` the index of the head of the remaining list). -/
def max_aux : ℚ → Nat → Nat → List ℚ → ℚ × Nat
  | bv, bi, _, [] => (bv, bi)
  | bv, bi, i, x :: rest =>
      if bv < x then max_aux x i (i + 1) rest else max_aux bv bi (i + 1) rest

/-- The first-scale column of the PSNR log (`self.ckp.log[:, 0]`). -/
def col0 (log : List (List ℚ)) : List ℚ :=
  log.map (fun row => row.getD 0 0)

/-- `self.ckp.log.max(0)` evaluated on the first scale column
(`best[0][0]`, `best[1][0]`): the maximum and the row index attaining
it.  `none` on an empty log. -/
def log_max0 (log : List (List ℚ)) : Option (ℚ × Nat) :=
  match col0 log with
  | [] => none
  | x :: rest => some (max_aux x 0 1 rest)

/-- `Trainer.test` (trainer.py lines 77–126): append a zero row to the
log (`ckp.add_log`), fill it scale by scale, and — unless `test_only` —
call `ckp.save(self, epoch, is_best=(best[1][0] + 1 == epoch))` exactly
once.  With an empty scale list the loop never binds `best` and line 126
raises `NameError`: `none`. -/
def trainer_test (env : TestEnv) (prev_log : List (List ℚ)) (epoch : Nat) :
    Option (List (List ℚ) × List TrainerEvent) :=
  let final_row := scale_loop env 0 env.scales (List.replicate env.scales.length 0)
  let log := prev_log ++ [final_row]
  if env.args.test_only then
    some (log, [])
  else
    match log_max0 log with
    | none => none
    | some (_, bi) =>
        if env.scales.isEmpty then none
        else some (log, [TrainerEvent.save epoch (bi + 1 == epoch)])

end RNAN

namespace KAIR

/-- A concrete option set used to evaluate the model on an input. -/
def exGanOpts : GanOpts where
  G_lossfn_weight := 1
  G_lossfn_type := "l1"
  F_lossfn_weight := 0
  D_lossfn_weight := 1
  gan_type := "gan"
  dist := false
  D_update_ratio := none
  D_init_iters := none
  G_scheduler_milestones := [400000]
  G_scheduler_gamma := 1 / 2
  D_scheduler_milestones := [400000]
  D_scheduler_gamma := 1 / 2

/-- A concrete training context used to evaluate the model on an input. -/
def exGanCtx : GanContext where
  opts := exGanOpts
  netG := fun x => x + 1
  netD := fun x => x
  L := 1
  H := 3
  var_ref := 3
  G_lossfn := fun a b => b - a
  F_lossfn := fun a b => a + b
  D_lossfn := fun p t => if t then 1 - p else p + 1

/-- `exGanCtx` with the distributed `ragan` configuration. -/
def exGanCtxRagan : GanContext :=
  { exGanCtx with
      opts :=
        { exGanOpts with
            gan_type := "ragan"
            dist := true } }

end KAIR

namespace RNAN

/-- A concrete argument set used to evaluate the trainer model. -/
def exArgs : Args where
  test_only := false
  epochs := 300
  skip_threshold := 2
  load := "experiment1"

/-- A concrete evaluation environment used to evaluate the model:
two test items, the second without ground truth. -/
def exTestEnv : TestEnv where
  args := exArgs
  scales := [2]
  images := [⟨1, some 3⟩, ⟨2, none⟩]
  model := fun lr _ => lr
  quantize := fun x => x
  calc_psnr := fun sr hr _ => sr + hr

end RNAN

namespace KAIR

/-- C5: `ModelGAN.define_scheduler` appends exactly two schedulers, both
`MultiStepLR`, first the one on the generator optimizer with the `G`
milestones and gamma, then the one on the discriminator optimizer with
the `D` options. -/
theorem define_scheduler_appends_two_multistep (o : GanOpts) (schedulers : List SchedulerDesc) :
    define_scheduler o schedulers =
      schedulers ++
        [⟨"MultiStepLR", "G_optimizer", o.G_scheduler_milestones, o.G_scheduler_gamma⟩,
         ⟨"MultiStepLR", "D_optimizer", o.D_scheduler_milestones, o.D_scheduler_gamma⟩] ∧
    (define_scheduler o schedulers).length = schedulers.length + 2 ∧
    (∀ d ∈ (define_scheduler o schedulers).drop schedulers.length, d.kind = "MultiStepLR") := by
  refine ⟨by simp [define_scheduler], by simp [define_scheduler], ?_⟩
  intro d hd
  simp [define_scheduler, List.drop_append] at hd
  rcases hd with h | h <;> rw [h]

/-- Every `backward` call of the discriminator phase is a
`GanEvent.backwardD`: no other event kind occurs in the lists
`d_phase_backwards` produces. -/
lemma d_phase_backwards_shape (c : GanContext) (E : ℚ) (dB : List GanEvent)
    (h : d_phase_backwards c E = some dB) :
    ∀ e ∈ dB, ∃ v, e = GanEvent.backwardD v := by
  unfold d_phase_backwards at h
  split_ifs at h <;> simp at h <;> subst h <;> simp

/-- C1: when the generator update is taken, what `backward` receives
before `G_optimizer.step()` is exactly the weighted pixel loss (present
iff `G_lossfn_weight > 0`), plus the weighted perceptual loss (present
iff `F_lossfn_weight > 0`), plus `D_lossfn_weight` times the GAN loss on
`netD`'s prediction for the generated image `E = netG(L)`. -/
theorem optimize_parameters_generator_loss (c : GanContext) (s : Nat)
    (h1 : g_branch_taken c.opts s = true)
    (h2 : c.opts.gan_type = "gan" ∨ c.opts.gan_type = "lsgan" ∨
      c.opts.gan_type = "wgangp" ∨ c.opts.gan_type = "ragan") :
    ∃ raw dB,
      gan_loss_on_fake c (c.netG c.L) = some raw ∧
      d_phase_backwards c (c.netG c.L) = some dB ∧
      optimize_parameters c s =
        some (([GanEvent.setDRequiresGrad false, GanEvent.zeroGradG] ++
          [GanEvent.backwardG
            ((if c.opts.G_lossfn_weight > 0 then
                c.opts.G_lossfn_weight * c.G_lossfn (c.netG c.L) c.H else 0) +
             (if c.opts.F_lossfn_weight > 0 then
                c.opts.F_lossfn_weight * c.F_lossfn (c.netG c.L) c.H else 0) +
             c.opts.D_lossfn_weight * raw),
           GanEvent.stepG] ++
          [GanEvent.setDRequiresGrad true, GanEvent.zeroGradD] ++ dB) ++
          [GanEvent.stepD]) := by
  obtain ⟨raw, hraw⟩ : ∃ raw, gan_loss_on_fake c (c.netG c.L) = some raw := by
    rcases h2 with h | h | h | h <;> simp [gan_loss_on_fake, h]
  obtain ⟨dB, hdB⟩ : ∃ dB, d_phase_backwards c (c.netG c.L) = some dB := by
    cases hdist : c.opts.dist <;> rcases h2 with h | h | h | h <;>
      simp [d_phase_backwards, h, hdist]
  refine ⟨raw, dB, hraw, hdB, ?_⟩
  simp [optimize_parameters, g_phase_events, h1, loss_G_total, hraw, hdB]

/-- C2: a completed `optimize_parameters` call freezes the
discriminator's `requires_grad` for the generator phase and restores it
before the discriminator phase, ends with `D_optimizer.step()` on every
call, steps `G_optimizer` exactly when `current_step % D_update_ratio ==
0 and current_step > D_init_iters`, and the falsy defaults are
`D_update_ratio = 1` and `D_init_iters = 0`. -/
theorem optimize_parameters_alternation (c : GanContext) (s : Nat)
    (h : (optimize_parameters c s).isSome = true) :
    ∃ gE dB,
      optimize_parameters c s =
        some (([GanEvent.setDRequiresGrad false, GanEvent.zeroGradG] ++ gE ++
          [GanEvent.setDRequiresGrad true, GanEvent.zeroGradD] ++ dB) ++
          [GanEvent.stepD]) ∧
      (GanEvent.stepG ∈ gE ↔ g_branch_taken c.opts s = true) ∧
      (∀ e ∈ gE, e ≠ GanEvent.stepD) ∧
      (∀ e ∈ dB, ∃ v, e = GanEvent.backwardD v) ∧
      (c.opts.D_update_ratio = none → effective_D_update_ratio c.opts = 1) ∧
      (c.opts.D_init_iters = none → effective_D_init_iters c.opts = 0) := by
  cases hg : g_phase_events c (c.netG c.L) s with
  | none => simp [optimize_parameters, hg] at h
  | some gE =>
    cases hd : d_phase_backwards c (c.netG c.L) with
    | none => simp [optimize_parameters, hg, hd] at h
    | some dB =>
      refine ⟨gE, dB, by simp [optimize_parameters, hg, hd], ?_, ?_,
        d_phase_backwards_shape c _ dB hd, ?_, ?_⟩
      · unfold g_phase_events at hg
        by_cases hb : g_branch_taken c.opts s = true
        · rw [if_pos hb] at hg
          cases hl : loss_G_total c (c.netG c.L) with
          | none => rw [hl] at hg; simp at hg
          | some l =>
            rw [hl] at hg
            obtain rfl : _ = gE := Option.some.inj hg
            simp [hb]
        · rw [if_neg hb] at hg
          obtain rfl : _ = gE := Option.some.inj hg
          simp [hb]
      · unfold g_phase_events at hg
        by_cases hb : g_branch_taken c.opts s = true
        · rw [if_pos hb] at hg
          cases hl : loss_G_total c (c.netG c.L) with
          | none => rw [hl] at hg; simp at hg
          | some l =>
            rw [hl] at hg
            obtain rfl : _ = gE := Option.some.inj hg
            intro e he
            simp only [Option.map_some, List.mem_cons, List.not_mem_nil, or_false] at he
            rcases he with rfl | rfl <;> simp
        · rw [if_neg hb] at hg
          obtain rfl : _ = gE := Option.some.inj hg
          simp
      · intro hnone
        simp [effective_D_update_ratio, hnone]
      · intro hnone
        simp [effective_D_init_iters, hnone]

/-- C9: in the distributed `ragan` discriminator phase, the only loss
backpropagated before `D_optimizer.step()` is the fake-branch loss
`l_d_fake = 0.5 * D_lossfn(netD(E) − netD(var_ref), False)`; the
real-branch loss is computed but `backward` is never called on it. -/
theorem dist_ragan_backpropagates_only_fake (c : GanContext) (s : Nat)
    (hdist : c.opts.dist = true) (hty : c.opts.gan_type = "ragan") :
    ∃ tr,
      optimize_parameters c s = some tr ∧
      d_phase_backwards c (c.netG c.L) =
        some [GanEvent.backwardD
          ((1 / 2 : ℚ) * c.D_lossfn (c.netD (c.netG c.L) - c.netD c.var_ref) false)] ∧
      tr.filter GanEvent.isBackwardD =
        [GanEvent.backwardD
          ((1 / 2 : ℚ) * c.D_lossfn (c.netD (c.netG c.L) - c.netD c.var_ref) false)] := by
  have hdB : d_phase_backwards c (c.netG c.L) =
      some [GanEvent.backwardD
        ((1 / 2 : ℚ) * c.D_lossfn (c.netD (c.netG c.L) - c.netD c.var_ref) false)] := by
    simp [d_phase_backwards, hdist, hty]
  obtain ⟨gE, hg, hgE⟩ : ∃ gE, g_phase_events c (c.netG c.L) s = some gE ∧
      ∀ e ∈ gE, GanEvent.isBackwardD e = false := by
    by_cases hb : g_branch_taken c.opts s = true
    · obtain ⟨raw, hraw⟩ : ∃ raw, gan_loss_on_fake c (c.netG c.L) = some raw := by
        simp [gan_loss_on_fake, hty]
      refine ⟨[GanEvent.backwardG
          ((if c.opts.G_lossfn_weight > 0 then
              c.opts.G_lossfn_weight * c.G_lossfn (c.netG c.L) c.H else 0) +
           (if c.opts.F_lossfn_weight > 0 then
              c.opts.F_lossfn_weight * c.F_lossfn (c.netG c.L) c.H else 0) +
           c.opts.D_lossfn_weight * raw),
        GanEvent.stepG], by simp [g_phase_events, hb, loss_G_total, hraw], ?_⟩
      intro e he
      simp only [List.mem_cons, List.not_mem_nil, or_false] at he
      rcases he with rfl | rfl <;> rfl
    · exact ⟨[], by simp [g_phase_events, hb], by simp⟩
  have hopt : optimize_parameters c s =
      some (([GanEvent.setDRequiresGrad false, GanEvent.zeroGradG] ++ gE ++
        [GanEvent.setDRequiresGrad true, GanEvent.zeroGradD] ++
        [GanEvent.backwardD
          ((1 / 2 : ℚ) * c.D_lossfn (c.netD (c.netG c.L) - c.netD c.var_ref) false)]) ++
        [GanEvent.stepD]) := by
    simp [optimize_parameters, hg, hdB]
  refine ⟨_, hopt, hdB, ?_⟩
  have hnil : gE.filter GanEvent.isBackwardD = [] :=
    List.filter_eq_nil_iff.mpr (by intro e he; simp [hgE e he])
  simp [List.filter_append, hnil, GanEvent.isBackwardD]

/-- Witness for C1 at a concrete context and step. -/
theorem optimize_parameters_generator_loss_witness :
    g_branch_taken exGanCtx.opts 1 = true ∧
    (∃ raw dB,
      gan_loss_on_fake exGanCtx (exGanCtx.netG exGanCtx.L) = some raw ∧
      d_phase_backwards exGanCtx (exGanCtx.netG exGanCtx.L) = some dB ∧
      optimize_parameters exGanCtx 1 =
        some (([GanEvent.setDRequiresGrad false, GanEvent.zeroGradG] ++
          [GanEvent.backwardG
            ((if exGanCtx.opts.G_lossfn_weight > 0 then
                exGanCtx.opts.G_lossfn_weight *
                  exGanCtx.G_lossfn (exGanCtx.netG exGanCtx.L) exGanCtx.H else 0) +
             (if exGanCtx.opts.F_lossfn_weight > 0 then
                exGanCtx.opts.F_lossfn_weight *
                  exGanCtx.F_lossfn (exGanCtx.netG exGanCtx.L) exGanCtx.H else 0) +
             exGanCtx.opts.D_lossfn_weight * raw),
           GanEvent.stepG] ++
          [GanEvent.setDRequiresGrad true, GanEvent.zeroGradD] ++ dB) ++
          [GanEvent.stepD])) :=
  ⟨by decide, optimize_parameters_generator_loss exGanCtx 1 (by decide) (Or.inl rfl)⟩

/-- Witness for C2 at a concrete context and step. -/
theorem optimize_parameters_alternation_witness :
    (optimize_parameters exGanCtx 1).isSome = true ∧
    (∃ gE dB,
      optimize_parameters exGanCtx 1 =
        some (([GanEvent.setDRequiresGrad false, GanEvent.zeroGradG] ++ gE ++
          [GanEvent.setDRequiresGrad true, GanEvent.zeroGradD] ++ dB) ++
          [GanEvent.stepD]) ∧
      (GanEvent.stepG ∈ gE ↔ g_branch_taken exGanCtx.opts 1 = true) ∧
      (∀ e ∈ gE, e ≠ GanEvent.stepD) ∧
      (∀ e ∈ dB, ∃ v, e = GanEvent.backwardD v) ∧
      (exGanCtx.opts.D_update_ratio = none → effective_D_update_ratio exGanCtx.opts = 1) ∧
      (exGanCtx.opts.D_init_iters = none → effective_D_init_iters exGanCtx.opts = 0)) :=
  ⟨rfl, optimize_parameters_alternation exGanCtx 1 rfl⟩

/-- Witness for C9 at a concrete distributed `ragan` context. -/
theorem dist_ragan_backpropagates_only_fake_witness :
    exGanCtxRagan.opts.dist = true ∧ exGanCtxRagan.opts.gan_type = "ragan" ∧
    (∃ tr,
      optimize_parameters exGanCtxRagan 1 = some tr ∧
      d_phase_backwards exGanCtxRagan (exGanCtxRagan.netG exGanCtxRagan.L) =
        some [GanEvent.backwardD
          ((1 / 2 : ℚ) * exGanCtxRagan.D_lossfn
            (exGanCtxRagan.netD (exGanCtxRagan.netG exGanCtxRagan.L) -
              exGanCtxRagan.netD exGanCtxRagan.var_ref) false)] ∧
      tr.filter GanEvent.isBackwardD =
        [GanEvent.backwardD
          ((1 / 2 : ℚ) * exGanCtxRagan.D_lossfn
            (exGanCtxRagan.netD (exGanCtxRagan.netG exGanCtxRagan.L) -
              exGanCtxRagan.netD exGanCtxRagan.var_ref) false)]) :=
  ⟨rfl, rfl, dist_ragan_backpropagates_only_fake exGanCtxRagan 1 rfl rfl⟩

/-- C10: with a positive pixel-loss weight, `ModelGAN.define_loss`
raises `NotImplementedError` exactly when `G_lossfn_type` is none of
`l1`, `l2`, `l2sum`, `ssim`; with a non-positive weight it configures no
pixel loss (`G_lossfn = None`) and raises nothing, whatever the type. -/
theorem define_G_loss_spec (o : GanOpts) :
    (0 < o.G_lossfn_weight ∧
        o.G_lossfn_type ∉ (["l1", "l2", "l2sum", "ssim"] : List String) →
      define_G_loss o =
        Except.error ("Loss type [" ++ o.G_lossfn_type ++ "] is not found.")) ∧
    (∀ msg, define_G_loss o = Except.error msg →
      0 < o.G_lossfn_weight ∧
        o.G_lossfn_type ∉ (["l1", "l2", "l2sum", "ssim"] : List String)) ∧
    (¬ 0 < o.G_lossfn_weight → define_G_loss o = Except.ok none) := by
  unfold define_G_loss
  split_ifs with h1 h2 h3 h4 h5 <;>
    simp_all

end KAIR

namespace RNAN

/-- C7: `Trainer.terminate` returns `True` exactly when `test_only`
holds (after one evaluation pass) or the current epoch
`scheduler.last_epoch + 1` has reached `args.epochs`; otherwise it
returns `False`, and the evaluation pass runs only under `test_only`. -/
theorem terminate_spec (args : Args) (last_epoch : Int) :
    ((terminate args last_epoch).1 = true ↔
      (args.test_only = true ∨ last_epoch + 1 ≥ args.epochs)) ∧
    (args.test_only = true →
      (terminate args last_epoch).2 = [TrainerEvent.runTest]) ∧
    (args.test_only = false → (terminate args last_epoch).2 = []) := by
  unfold terminate
  cases h : args.test_only <;> simp [h]

/-- C6: when `args.load != '.'`, `Trainer.__init__` restores the
optimizer state from `optimizer.pt` in the checkpoint directory and
calls `scheduler.step()` once per entry of `ckp.log`. -/
theorem trainer_init_resume_spec (args : Args) (ckp_dir : String) (ckp_log_len : Nat)
    (h : args.load ≠ ".") :
    (trainer_init_resume args ckp_dir ckp_log_len).optimizer_loaded_from =
      some (ckp_dir ++ "/optimizer.pt") ∧
    (trainer_init_resume args ckp_dir ckp_log_len).scheduler_steps = ckp_log_len := by
  simp [trainer_init_resume, h]

/-- Witness for C6 at a concrete resumed run. -/
theorem trainer_init_resume_spec_witness :
    exArgs.load ≠ "." ∧
    ((trainer_init_resume exArgs "exp/test" 7).optimizer_loaded_from =
        some ("exp/test" ++ "/optimizer.pt") ∧
      (trainer_init_resume exArgs "exp/test" 7).scheduler_steps = 7) :=
  ⟨by decide, trainer_init_resume_spec exArgs "exp/test" 7 (by decide)⟩

/-- C8: a batch whose loss is not strictly below `skip_threshold *
error_last` triggers neither `loss.backward()` nor `optimizer.step()`,
leaving the parameters unchanged; and `error_last` starts at `1e8`. -/
theorem train_batch_skip_leaves_params (args : Args) (error_last params lossVal : ℚ)
    (gradient_update : ℚ → ℚ)
    (h : ¬ lossVal < args.skip_threshold * error_last) :
    train_batch args error_last params gradient_update lossVal = (params, []) ∧
    (∀ a d n, (trainer_init_resume a d n).error_last = 100000000) := by
  refine ⟨by simp [train_batch, h], ?_⟩
  intro a d n
  unfold trainer_init_resume
  split <;> rfl

/-- Folding the guarded PSNR accumulation over the loader items equals
the start value plus the sum over the items with ground truth. -/
lemma foldl_psnr_acc (F : TestImage → ℚ → ℚ) (l : List TestImage) (a : ℚ) :
    List.foldl
      (fun acc img =>
        match img.hr with
        | some hr => acc + F img hr
        | none => acc) a l =
      a + (l.filterMap (fun img => img.hr.map (F img))).sum := by
  induction l generalizing a with
  | nil => simp
  | cons x xs ih => cases hx : x.hr <;> simp [hx, ih, add_assoc]

/-- `eval_acc` is the sum of the per-image PSNR values over exactly the
items whose ground truth is available. -/
lemma eval_acc_eq_sum (env : TestEnv) (idx : Nat) (s : ℚ) :
    eval_acc env idx s =
      (env.images.filterMap (fun img => img.hr.map (fun hr =>
        env.calc_psnr (env.quantize (env.model img.lr idx)) hr s))).sum := by
  have h := foldl_psnr_acc
    (fun img hr => env.calc_psnr (env.quantize (env.model img.lr idx)) hr s)
    env.images 0
  simpa [eval_acc] using h

/-- The scale loop does not change the length of the log row. -/
lemma scale_loop_length (env : TestEnv) :
    ∀ (scales : List ℚ) (idx : Nat) (row : List ℚ),
      (scale_loop env idx scales row).length = row.length := by
  intro scales
  induction scales with
  | nil => intro idx row; rfl
  | cons s rest ih => intro idx row; simp [scale_loop, ih]

/-- The scale loop never touches row entries below its starting index. -/
lemma scale_loop_getD_lt (env : TestEnv) :
    ∀ (scales : List ℚ) (idx j : Nat) (row : List ℚ), j < idx →
      (scale_loop env idx scales row).getD j 0 = row.getD j 0 := by
  intro scales
  induction scales with
  | nil => intro idx j row _; rfl
  | cons s rest ih =>
    intro idx j row hj
    rw [scale_loop, ih (idx + 1) j _ (Nat.lt_succ_of_lt hj)]
    simp [List.getD_eq_getElem?_getD, List.getElem?_set_ne (Nat.ne_of_gt hj)]

/-- The entry the scale loop leaves at offset `k` is the mean PSNR of
scale number `idx + k`. -/
lemma scale_loop_getD (env : TestEnv) :
    ∀ (scales : List ℚ) (idx : Nat) (row : List ℚ) (k : Nat),
      k < scales.length → idx + scales.length ≤ row.length →
      (scale_loop env idx scales row).getD (idx + k) 0 =
        eval_acc env (idx + k) (scales.getD k 0) / (env.images.length : ℚ) := by
  intro scales
  induction scales with
  | nil => intro idx row k hk _; exact absurd hk (by simp)
  | cons s rest ih =>
    intro idx row k hk hlen
    cases k with
    | zero =>
      rw [scale_loop, scale_loop_getD_lt env rest (idx + 1) (idx + 0) _ (by omega)]
      have hidx : idx < row.length := by simp at hlen; omega
      simp [List.getD_eq_getElem?_getD, List.getElem?_set_self, hidx]
    | succ m =>
      rw [scale_loop]
      have harith : idx + (m + 1) = (idx + 1) + m := by omega
      rw [harith,
        ih (idx + 1) (row.set idx (eval_acc env idx s / (env.images.length : ℚ))) m
          (by simpa using Nat.lt_of_succ_lt_succ hk)
          (by simp at hlen ⊢; omega)]
      simp

/-- The running maximum dominates its initial value. -/
lemma max_aux_ge_init :
    ∀ (l : List ℚ) (bv : ℚ) (bi i : Nat), bv ≤ (max_aux bv bi i l).1 := by
  intro l
  induction l with
  | nil => intro bv bi i; exact le_refl _
  | cons x rest ih =>
    intro bv bi i
    simp only [max_aux]
    by_cases h : bv < x
    · rw [if_pos h]
      exact le_of_lt (lt_of_lt_of_le h (ih x i (i + 1)))
    · rw [if_neg h]
      exact ih bv bi (i + 1)

/-- The running maximum dominates every element of the list. -/
lemma max_aux_ge_mem :
    ∀ (l : List ℚ) (bv : ℚ) (bi i : Nat) (x : ℚ), x ∈ l → x ≤ (max_aux bv bi i l).1 := by
  intro l
  induction l with
  | nil => intro bv bi i x hx; exact absurd hx (by simp)
  | cons y rest ih =>
    intro bv bi i x hx
    simp only [max_aux]
    by_cases h : bv < y
    · rw [if_pos h]
      rcases List.mem_cons.mp hx with rfl | hx
      · exact max_aux_ge_init rest x i (i + 1)
      · exact ih y i (i + 1) x hx
    · rw [if_neg h]
      rcases List.mem_cons.mp hx with rfl | hx
      · exact le_trans (le_of_not_lt h) (max_aux_ge_init rest bv bi (i + 1))
      · exact ih bv bi (i + 1) x hx

/-- The running maximum is either the initial pair or an element of the
list together with its position. -/
lemma max_aux_attained :
    ∀ (l : List ℚ) (bv : ℚ) (bi i : Nat),
      ((max_aux bv bi i l).1 = bv ∧ (max_aux bv bi i l).2 = bi) ∨
      (∃ k, k < l.length ∧ (max_aux bv bi i l).2 = i + k ∧
        (max_aux bv bi i l).1 = l.getD k 0) := by
  intro l
  induction l with
  | nil => intro bv bi i; exact Or.inl ⟨rfl, rfl⟩
  | cons y rest ih =>
    intro bv bi i
    simp only [max_aux]
    by_cases h : bv < y
    · rw [if_pos h]
      rcases ih y i (i + 1) with ⟨h1, h2⟩ | ⟨k, hk, h1, h2⟩
      · exact Or.inr ⟨0, by simp, by simpa using h2, by simpa using h1⟩
      · exact Or.inr ⟨k + 1, by simpa using hk, by rw [h1]; omega, by simpa using h2⟩
    · rw [if_neg h]
      rcases ih bv bi (i + 1) with ⟨h1, h2⟩ | ⟨k, hk, h1, h2⟩
      · exact Or.inl ⟨h1, h2⟩
      · exact Or.inr ⟨k + 1, by simpa using hk, by rw [h1]; omega, by simpa using h2⟩

/-- A non-empty log always yields a `best` pair. -/
lemma log_max0_isSome (log : List (List ℚ)) (h : log ≠ []) :
    ∃ p, log_max0 log = some p := by
  cases hc : col0 log with
  | nil => exact absurd (by simpa [col0] using hc) h
  | cons x rest => exact ⟨max_aux x 0 1 rest, by unfold log_max0; rw [hc]⟩

/-- The pair `log_max0` returns is the maximum of the first-scale
column and a row index attaining it. -/
lemma log_max0_spec (log : List (List ℚ)) (v : ℚ) (bi : Nat)
    (h : log_max0 log = some (v, bi)) :
    (∀ x ∈ col0 log, x ≤ v) ∧ (col0 log).getD bi 0 = v ∧ bi < log.length := by
  have hlen : (col0 log).length = log.length := by simp [col0]
  cases hc : col0 log with
  | nil => unfold log_max0 at h; rw [hc] at h; exact absurd h (by simp)
  | cons x rest =>
    unfold log_max0 at h
    rw [hc] at h
    have h' : max_aux x 0 1 rest = (v, bi) := Option.some.inj h
    have hv : (max_aux x 0 1 rest).1 = v := by rw [h']
    have hb : (max_aux x 0 1 rest).2 = bi := by rw [h']
    refine ⟨?_, ?_, ?_⟩
    · intro y hy
      rcases List.mem_cons.mp hy with rfl | hy2
      · rw [← hv]
        exact max_aux_ge_init rest y 0 1
      · rw [← hv]
        exact max_aux_ge_mem rest x 0 1 y hy2
    · rcases max_aux_attained rest x 0 1 with ⟨h1, h2⟩ | ⟨k, hk, h1, h2⟩
      · have hbi : bi = 0 := by rw [← hb, h2]
        have hvx : v = x := by rw [← hv, h1]
        rw [hbi, hvx]
        rfl
      · have hbi : bi = 1 + k := by rw [← hb, h1]
        have hvk : v = rest.getD k 0 := by rw [← hv, h2]
        have hbi' : bi = k + 1 := by omega
        rw [hbi', hvk]
        simp
    · rcases max_aux_attained rest x 0 1 with ⟨h1, h2⟩ | ⟨k, hk, h1, h2⟩
      · have hbi : bi = 0 := by rw [← hb, h2]
        rw [← hlen, hc, hbi]
        simp
      · have hbi : bi = 1 + k := by rw [← hb, h1]
        rw [← hlen, hc]
        simp only [List.length_cons]
        omega

/-- C3: for every scale index, the value `Trainer.test` records in
`ckp.log[-1, idx_scale]` is the sum of the per-image PSNR values over
exactly the images with ground truth, divided by the number of items in
the test loader. -/
theorem test_log_records_mean_psnr (env : TestEnv) (prev_log : List (List ℚ))
    (epoch : Nat) (idx : Nat) (h : idx < env.scales.length) :
    ∃ log events,
      trainer_test env prev_log epoch = some (log, events) ∧
      log.getLastD [] = scale_loop env 0 env.scales (List.replicate env.scales.length 0) ∧
      (log.getLastD []).getD idx 0 =
        (env.images.filterMap (fun img => img.hr.map (fun hr =>
          env.calc_psnr (env.quantize (env.model img.lr idx)) hr
            (env.scales.getD idx 0)))).sum / (env.images.length : ℚ) := by
  have hrow : (scale_loop env 0 env.scales
      (List.replicate env.scales.length 0)).getD idx 0 =
      eval_acc env idx (env.scales.getD idx 0) / (env.images.length : ℚ) := by
    have hs := scale_loop_getD env env.scales 0
      (List.replicate env.scales.length 0) idx h (by simp)
    simpa using hs
  obtain ⟨events, hrun⟩ : ∃ events,
      trainer_test env prev_log epoch =
        some (prev_log ++
          [scale_loop env 0 env.scales (List.replicate env.scales.length 0)], events) := by
    cases hto : env.args.test_only with
    | true => exact ⟨[], by simp [trainer_test, hto]⟩
    | false =>
      have hne : env.scales.isEmpty = false := by
        cases hs : env.scales with
        | nil => rw [hs] at h; exact absurd h (by simp)
        | cons a l => rfl
      obtain ⟨⟨v, bi⟩, hm⟩ := log_max0_isSome
        (prev_log ++
          [scale_loop env 0 env.scales (List.replicate env.scales.length 0)]) (by simp)
      exact ⟨[TrainerEvent.save epoch (bi + 1 == epoch)],
        by simp [trainer_test, hto, hm, hne]⟩
  refine ⟨_, events, hrun, by simp, ?_⟩
  rw [List.getLastD_concat, hrow, eval_acc_eq_sum]

/-- Witness for C3 at a concrete evaluation environment. -/
theorem test_log_records_mean_psnr_witness :
    0 < exTestEnv.scales.length ∧
    (∃ log events,
      trainer_test exTestEnv [] 1 = some (log, events) ∧
      log.getLastD [] =
        scale_loop exTestEnv 0 exTestEnv.scales
          (List.replicate exTestEnv.scales.length 0) ∧
      (log.getLastD []).getD 0 0 =
        (exTestEnv.images.filterMap (fun img => img.hr.map (fun hr =>
          exTestEnv.calc_psnr (exTestEnv.quantize (exTestEnv.model img.lr 0)) hr
            (exTestEnv.scales.getD 0 0)))).sum / (exTestEnv.images.length : ℚ)) :=
  ⟨by decide, test_log_records_mean_psnr exTestEnv [] 1 0 (by decide)⟩

/-- C4: when `test_only` is off, `Trainer.test` ends with exactly one
`ckp.save` call for the current epoch, whose `is_best` flag holds iff
the row index attaining the maximum logged first-scale PSNR, plus one,
equals the current epoch. -/
theorem test_saves_once_with_best_flag (env : TestEnv) (prev_log : List (List ℚ))
    (epoch : Nat) (h1 : env.args.test_only = false) (h2 : env.scales ≠ []) :
    ∃ log v bi,
      trainer_test env prev_log epoch =
        some (log, [TrainerEvent.save epoch (bi + 1 == epoch)]) ∧
      log_max0 log = some (v, bi) ∧
      (∀ x ∈ col0 log, x ≤ v) ∧
      (col0 log).getD bi 0 = v ∧
      bi < log.length := by
  obtain ⟨⟨v, bi⟩, hm⟩ := log_max0_isSome
    (prev_log ++
      [scale_loop env 0 env.scales (List.replicate env.scales.length 0)]) (by simp)
  have hne : env.scales.isEmpty = false := by
    cases hs : env.scales with
    | nil => exact absurd hs h2
    | cons a l => rfl
  refine ⟨_, v, bi, ?_, hm, log_max0_spec _ _ _ hm⟩
  simp [trainer_test, h1, hm, hne]

/-- Witness for C4 at a concrete evaluation environment. -/
theorem test_saves_once_with_best_flag_witness :
    exTestEnv.args.test_only = false ∧ exTestEnv.scales ≠ [] ∧
    (∃ log v bi,
      trainer_test exTestEnv [] 1 =
        some (log, [TrainerEvent.save 1 (bi + 1 == 1)]) ∧
      log_max0 log = some (v, bi) ∧
      (∀ x ∈ col0 log, x ≤ v) ∧
      (col0 log).getD bi 0 = v ∧
      bi < log.length) :=
  ⟨rfl, by decide, test_saves_once_with_best_flag exTestEnv [] 1 rfl (by decide)⟩

/-- Witness for C8 at a concrete skipped batch. -/
theorem train_batch_skip_leaves_params_witness :
    ¬ (250 : ℚ) < exArgs.skip_threshold * 100 ∧
    (train_batch exArgs 100 5 (fun x => x - 1) 250 = (5, []) ∧
      (∀ a d n, (trainer_init_resume a d n).error_last = 100000000)) :=
  ⟨by norm_num [exArgs],
    train_batch_skip_leaves_params exArgs 100 5 250 (fun x => x - 1)
      (by norm_num [exArgs])⟩

end RNAN
